import Mathlib

/-!
Shallow embedding of the tree-diff engine of `git-diff/src/visit/changes.rs`
(`visit::Changes::to_obtain_tree`), together with the small data model it
operates on.  The entry/tree/change/observer types live outside the excerpt
under verification, so they are modelled from the specification; the engine
itself is translated line by line from the source.

The source's `todo!(..)` branches (the merge-join catch-up steps and every
recursion step) terminate the process by panicking; the embedding represents
reaching such a branch as the `Outcome.todo msg` result carrying the panic
message, so that an execution either returns `Ok`/`Err` as the source does or
is stopped at the exact unimplemented branch the source would panic in.
-/

namespace GitDiff

/-- Modelled from the spec: the entry-mode variants of a tree entry
(regular file, executable file, symlink, sub-tree, external-link/submodule). -/
inductive EntryMode
  | blob
  | blobExecutable
  | link
  | tree
  | commit
  deriving DecidableEq, Repr

/-- Modelled from the spec: an entry mode is a tree exactly when it is the
sub-tree variant. -/
def EntryMode.is_tree : EntryMode → Bool
  | EntryMode.tree => true
  | _ => false

/-- Modelled from the spec: the complement of `EntryMode.is_tree`. -/
def EntryMode.is_no_tree (m : EntryMode) : Bool :=
  !m.is_tree

/-- Modelled from the spec: a tree entry is a filename (byte string, no
separators), a mode and a content hash; hashes are abstracted as naturals. -/
structure Entry where
  filename : List Nat
  mode : EntryMode
  oid : Nat
  deriving DecidableEq, Repr

/-- Modelled from the spec: a tree is an ordered sequence of entries
(`immutable::Tree` exposes them as the `entries` field). -/
structure Tree where
  entries : List Entry
  deriving DecidableEq, Repr

/-- The well-known empty tree, `static EMPTY_TREE: immutable::Tree` in the
source: a tree with no entries. -/
def EMPTY_TREE : Tree := ⟨[]⟩

/-- Byte-wise lexicographic comparison of filenames, the `cmp` used by
`lhs.filename.cmp(rhs.filename)` on byte strings. -/
def cmpBytes : List Nat → List Nat → Ordering
  | [], [] => Ordering.eq
  | [], _ :: _ => Ordering.lt
  | _ :: _, [] => Ordering.gt
  | a :: as, b :: bs =>
      if a < b then Ordering.lt
      else if b < a then Ordering.gt
      else cmpBytes as bs

/-- Modelled from the spec: a path component is a name plus a numeric
identity assigned from a monotonically increasing counter scoped to one diff
invocation (`PathComponent::new(name, &mut path_id)` bumps the counter and the
component and the following change record share the resulting identity). -/
structure PathComponent where
  name : List Nat
  id : Nat
  deriving DecidableEq, Repr

/-- Modelled from the spec: the only mutation mode the engine uses is
Replace (create or overwrite the component at the current depth). -/
inductive PathComponentUpdateMode
  | replace
  deriving DecidableEq, Repr

/-- The `Change` tagged union of `visit::record`, as constructed by the
engine: Addition and Deletion carry one mode/hash, Modification carries the
previous and the new pair; each carries the current path identity. -/
inductive Change
  | addition (entry_mode : EntryMode) (oid : Nat) (path_id : Nat)
  | deletion (entry_mode : EntryMode) (oid : Nat) (path_id : Nat)
  | modification (previous_entry_mode : EntryMode) (previous_oid : Nat)
      (entry_mode : EntryMode) (oid : Nat) (path_id : Nat)
  deriving DecidableEq, Repr

/-- The path identity a change record carries. -/
def changePathId : Change → Nat
  | Change.addition _ _ i => i
  | Change.deletion _ _ i => i
  | Change.modification _ _ _ _ i => i

/-- The `Error` enum of `changes.rs`: an object referenced by a tree was not
found in the database, or the delegate cancelled the operation. -/
inductive Error
  | notFound (oid : Nat)
  | cancelled
  deriving DecidableEq, Repr

/-- The result of one engine run: `Ok(())`, `Err(e)`, or the panic raised by
reaching one of the source's `todo!` branches (carrying its message). -/
inductive Outcome
  | ok
  | err (e : Error)
  | todo (msg : String)
  deriving DecidableEq, Repr

/-- One observable effect delivered to the delegate: a Path Tracker mutation
(`update_path_component`) or a change record (`record`). -/
inductive Event
  | update (c : PathComponent) (m : PathComponentUpdateMode)
  | record (ch : Change)
  deriving DecidableEq, Repr

/-- The merge loop of `to_obtain_tree`, translated from the source.  The
delegate is modelled by `cancel`, mapping the index of a `record` call and the
change it carries to the cancellation decision of that call; the trace of
delegate calls is returned together with the outcome.  Arguments: the two
entry cursors (the source advances both with `next()` at the top of each
iteration), the `path_id` counter, and the number of `record` calls made so
far. -/
def runStep (cancel : Nat → Change → Bool) :
    List Entry → List Entry → Nat → Nat → List Event × Outcome
  | [], [], _, _ => ([], Outcome.ok)
  | lhs :: ls, rhs :: rs, pathId, nRec =>
      match cmpBytes lhs.filename rhs.filename with
      | Ordering.lt => ([], Outcome.todo "entry compares less - catch up")
      | Ordering.gt =>
          ([], Outcome.todo "entry compares more - let the other side catch up")
      | Ordering.eq =>
          if lhs.oid ≠ rhs.oid ∨ lhs.mode ≠ rhs.mode then
            let pid := pathId + 1
            let comp : PathComponent := ⟨lhs.filename, pid⟩
            let change :=
              if (lhs.mode.is_no_tree && rhs.mode.is_tree)
                  || (rhs.mode.is_tree && rhs.mode.is_no_tree) then
                Change.deletion lhs.mode lhs.oid pid
              else
                Change.modification lhs.mode lhs.oid rhs.mode rhs.oid pid
            let evs := [Event.update comp PathComponentUpdateMode.replace,
                        Event.record change]
            if cancel nRec change then
              (evs, Outcome.err Error.cancelled)
            else if lhs.mode = EntryMode.tree ∧ rhs.mode = EntryMode.tree then
              (evs, Outcome.todo "recurse tree|tree")
            else if rhs.mode = EntryMode.tree then
              (evs, Outcome.todo "recurse non-tree|tree")
            else if lhs.mode = EntryMode.tree then
              (evs, Outcome.todo "recurse tree|non-tree")
            else
              let rest := runStep cancel ls rs pid (nRec + 1)
              (evs ++ rest.1, rest.2)
          else
            if lhs.mode = EntryMode.tree ∧ rhs.mode = EntryMode.tree then
              ([], Outcome.todo "recurse tree|tree")
            else if rhs.mode = EntryMode.tree then
              ([], Outcome.todo "recurse non-tree|tree")
            else if lhs.mode = EntryMode.tree then
              ([], Outcome.todo "recurse tree|non-tree")
            else
              runStep cancel ls rs pathId nRec
  | lhs :: ls, [], pathId, nRec =>
      let pid := pathId + 1
      let comp : PathComponent := ⟨lhs.filename, pid⟩
      let change := Change.deletion lhs.mode lhs.oid pid
      let evs := [Event.update comp PathComponentUpdateMode.replace,
                  Event.record change]
      if cancel nRec change then
        (evs, Outcome.err Error.cancelled)
      else
        let rest := runStep cancel ls [] pid (nRec + 1)
        (evs ++ rest.1, rest.2)
  | [], rhs :: rs, pathId, nRec =>
      let pid := pathId + 1
      let comp : PathComponent := ⟨rhs.filename, pid⟩
      let change := Change.addition rhs.mode rhs.oid pid
      let evs := [Event.update comp PathComponentUpdateMode.replace,
                  Event.record change]
      if cancel nRec change then
        (evs, Outcome.err Error.cancelled)
      else
        let rest := runStep cancel [] rs pid (nRec + 1)
        (evs ++ rest.1, rest.2)

/-- `visit::Changes::to_obtain_tree`: the receiver is `Changes(Option<&Tree>)`,
an absent source tree falls back to `EMPTY_TREE`; `locate` is the
object-lookup capability (`_locate` in the source, which never invokes it);
the merge loop starts with `path_id = 0` and both cursors at the front. -/
def to_obtain_tree (self : Option Tree) (other : Tree)
    (locate : Nat → Option Tree) (cancel : Nat → Change → Bool) :
    List Event × Outcome :=
  let lhs := self.getD EMPTY_TREE
  runStep cancel lhs.entries other.entries 0 0

/-- Recognizes a `record` event carrying an Addition. -/
def isAdditionEvent : Event → Bool
  | Event.record (Change.addition _ _ _) => true
  | _ => false

/-- Recognizes a `record` event carrying a Deletion. -/
def isDeletionEvent : Event → Bool
  | Event.record (Change.deletion _ _ _) => true
  | _ => false

/-- Recognizes a `record` event carrying a Modification. -/
def isModificationEvent : Event → Bool
  | Event.record (Change.modification _ _ _ _ _) => true
  | _ => false

/-- Number of Addition records in a trace. -/
def countAdditions (evs : List Event) : Nat :=
  (evs.filter isAdditionEvent).length

/-- Number of Deletion records in a trace. -/
def countDeletions (evs : List Event) : Nat :=
  (evs.filter isDeletionEvent).length

/-- Number of Modification records in a trace. -/
def countModifications (evs : List Event) : Nat :=
  (evs.filter isModificationEvent).length

/-- The trace produced by running the exhausted-source arm over a list of
target entries: for each entry, one Replace mutation followed by one Addition
record, with the path identity increasing by one per entry. -/
def additionEvents : List Entry → Nat → List Event
  | [], _ => []
  | e :: es, pathId =>
      Event.update ⟨e.filename, pathId + 1⟩ PathComponentUpdateMode.replace
        :: Event.record (Change.addition e.mode e.oid (pathId + 1))
        :: additionEvents es (pathId + 1)

/-- Recognizes the Cancelled error outcome. -/
def isCancelledOutcome : Outcome → Bool
  | Outcome.err Error.cancelled => true
  | _ => false

/-- Scans a trace against the delegate's cancellation decisions: if the
delegate answered Cancel at some `record` call, that record must be the last
event of the trace and the outcome must be the Cancelled error; the first
argument counts the `record` calls made before the scanned suffix. -/
def cancelRespected (cancel : Nat → Change → Bool) :
    Nat → List Event → Outcome → Bool
  | _, [], _ => true
  | n, Event.update _ _ :: rest, out => cancelRespected cancel n rest out
  | n, Event.record ch :: rest, out =>
      if cancel n ch then rest.isEmpty && isCancelledOutcome out
      else cancelRespected cancel (n + 1) rest out

/-- Checks the Path Tracker protocol on a trace: the trace is a sequence of
blocks, each a single Replace mutation immediately followed by a single
change record sharing its path identity. -/
def pairedTrace : List Event → Bool
  | [] => true
  | Event.update c PathComponentUpdateMode.replace :: Event.record ch :: rest =>
      (c.id == changePathId ch) && pairedTrace rest
  | _ => false

/-- Modelled from the spec: the number of entries reachable by recursively
flattening a list of entries, expanding every sub-tree through the store
(every entry met at any depth is counted, sub-tree entries included); `fuel`
bounds the expansion depth. -/
def flattenedCount (store : Nat → Option Tree) : Nat → List Entry → Nat
  | _, [] => 0
  | fuel, e :: es =>
      (1 +
        match e.mode.is_tree, fuel with
        | true, fuel' + 1 =>
            match store e.oid with
            | some sub => flattenedCount store fuel' sub.entries
            | none => 0
        | _, _ => 0) +
      flattenedCount store fuel es

/-- A delegate that never cancels. -/
def neverCancel : Nat → Change → Bool := fun _ _ => false

/-- A delegate that cancels at every record call. -/
def alwaysCancel : Nat → Change → Bool := fun _ _ => true

/-- A lookup that finds nothing. -/
def emptyLookup : Nat → Option Tree := fun _ => none

/-- A lookup mapping hash 7 to a sub-tree of three regular files, used as the
store backing the nested-tree counterexample. -/
def nestedLookup : Nat → Option Tree :=
  fun h =>
    if h = 7 then
      some ⟨[⟨[120], EntryMode.blob, 20⟩, ⟨[121], EntryMode.blob, 21⟩,
             ⟨[122], EntryMode.blob, 22⟩]⟩
    else none

/-- A target tree with a single sub-tree entry `"d"` whose contents (under
`nestedLookup`) are three regular files. -/
def nestedTree : Tree := ⟨[⟨[100], EntryMode.tree, 7⟩]⟩

/-- The merge loop honors a Cancel answer: scanning its trace against the
delegate's decisions, the first cancelled record call (if any) ends the trace
and forces the Cancelled outcome.  Induction over the total length of the two
cursors. -/
theorem cancelRespected_runStep_aux (cancel : Nat → Change → Bool) :
    ∀ k l r pid n, l.length + r.length ≤ k →
      cancelRespected cancel n (runStep cancel l r pid n).1
        (runStep cancel l r pid n).2 = true := by
  intro k
  induction k with
  | zero =>
      intro l r pid n hlen
      match l, r with
      | [], [] => simp [runStep, cancelRespected]
      | a :: _, _ => simp at hlen
      | [], a :: _ => simp at hlen
  | succ k ih =>
      intro l r pid n hlen
      match l, r with
      | [], [] => simp [runStep, cancelRespected]
      | lhs :: ls, [] =>
          have hrec := ih ls [] (pid + 1) (n + 1) (by simp at hlen ⊢; omega)
          simp only [runStep]
          by_cases hc : cancel n (Change.deletion lhs.mode lhs.oid (pid + 1)) = true
          · simp [hc, cancelRespected, isCancelledOutcome]
          · simp [hc, cancelRespected, hrec]
      | [], rhs :: rs =>
          have hrec := ih [] rs (pid + 1) (n + 1) (by simp at hlen ⊢; omega)
          simp only [runStep]
          by_cases hc : cancel n (Change.addition rhs.mode rhs.oid (pid + 1)) = true
          · simp [hc, cancelRespected, isCancelledOutcome]
          · simp [hc, cancelRespected, hrec]
      | lhs :: ls, rhs :: rs =>
          have hrec1 := ih ls rs (pid + 1) (n + 1) (by simp at hlen ⊢; omega)
          have hrec2 := ih ls rs pid n (by simp at hlen ⊢; omega)
          simp only [runStep]
          rcases hcmp : cmpBytes lhs.filename rhs.filename with _ | _ | _ <;>
            simp only [hcmp]
          · simp [cancelRespected]
          · split_ifs <;>
              simp_all [cancelRespected, isCancelledOutcome]
          · simp [cancelRespected]

/-- Every trace of the merge loop is a sequence of Replace-mutation/record
blocks whose path identities agree.  Induction over the total length of the
two cursors. -/
theorem pairedTrace_runStep_aux (cancel : Nat → Change → Bool) :
    ∀ k l r pid n, l.length + r.length ≤ k →
      pairedTrace (runStep cancel l r pid n).1 = true := by
  intro k
  induction k with
  | zero =>
      intro l r pid n hlen
      match l, r with
      | [], [] => simp [runStep, pairedTrace]
      | a :: _, _ => simp at hlen
      | [], a :: _ => simp at hlen
  | succ k ih =>
      intro l r pid n hlen
      match l, r with
      | [], [] => simp [runStep, pairedTrace]
      | lhs :: ls, [] =>
          have hrec := ih ls [] (pid + 1) (n + 1) (by simp at hlen ⊢; omega)
          simp only [runStep]
          by_cases hc : cancel n (Change.deletion lhs.mode lhs.oid (pid + 1)) = true
          · simp [hc, pairedTrace, changePathId]
          · simp [hc, pairedTrace, changePathId, hrec]
      | [], rhs :: rs =>
          have hrec := ih [] rs (pid + 1) (n + 1) (by simp at hlen ⊢; omega)
          simp only [runStep]
          by_cases hc : cancel n (Change.addition rhs.mode rhs.oid (pid + 1)) = true
          · simp [hc, pairedTrace, changePathId]
          · simp [hc, pairedTrace, changePathId, hrec]
      | lhs :: ls, rhs :: rs =>
          have hrec1 := ih ls rs (pid + 1) (n + 1) (by simp at hlen ⊢; omega)
          have hrec2 := ih ls rs pid n (by simp at hlen ⊢; omega)
          simp only [runStep]
          rcases hcmp : cmpBytes lhs.filename rhs.filename with _ | _ | _ <;>
            simp only [hcmp]
          · simp [pairedTrace]
          · split_ifs <;>
              simp_all [pairedTrace, changePathId]
          · simp [pairedTrace]

/-- Running the merge loop with an exhausted source cursor and a delegate that
never cancels produces exactly the addition trace of the remaining target
entries and succeeds. -/
theorem runStep_empty_left (cancel : Nat → Change → Bool)
    (h : ∀ n ch, cancel n ch = false) :
    ∀ r pid n, runStep cancel [] r pid n = (additionEvents r pid, Outcome.ok) := by
  intro r
  induction r with
  | nil => intro pid n; simp [runStep, additionEvents]
  | cons e es ih => intro pid n; simp [runStep, additionEvents, h, ih]

/-- The addition trace of a list of entries holds one Addition per entry. -/
theorem countAdditions_additionEvents :
    ∀ r pid, countAdditions (additionEvents r pid) = r.length := by
  intro r
  induction r with
  | nil => intro pid; simp [additionEvents, countAdditions]
  | cons e es ih =>
      intro pid
      simp [additionEvents, countAdditions, isAdditionEvent, List.filter] at ih ⊢
      exact ih (pid + 1)

/-- The addition trace of a list of entries holds no Deletion. -/
theorem countDeletions_additionEvents :
    ∀ r pid, countDeletions (additionEvents r pid) = 0 := by
  intro r
  induction r with
  | nil => intro pid; simp [additionEvents, countDeletions]
  | cons e es ih =>
      intro pid
      simp [additionEvents, countDeletions, isDeletionEvent, List.filter] at ih ⊢
      exact ih (pid + 1)

/-- The addition trace of a list of entries holds no Modification. -/
theorem countModifications_additionEvents :
    ∀ r pid, countModifications (additionEvents r pid) = 0 := by
  intro r
  induction r with
  | nil => intro pid; simp [additionEvents, countModifications]
  | cons e es ih =>
      intro pid
      simp [additionEvents, countModifications, isModificationEvent, List.filter] at ih ⊢
      exact ih (pid + 1)

/-- C1: the claim says that when both cursors hold entries with different
filenames, only the earlier-sorting cursor is advanced and a Deletion or an
Addition is emitted.  In the code both cursors are advanced by `next()` at
the top of every iteration, and the differing-name arms are the
unimplemented `todo!` catch-up branches: on source `[("a", blob, 1)]` versus
target `[("b", blob, 2)]` the call emits no event at all and panics at
`todo!("entry compares less - catch up")`. -/
theorem c1_merge_join_catch_up_unimplemented :
    to_obtain_tree (some ⟨[⟨[97], EntryMode.blob, 1⟩]⟩)
        ⟨[⟨[98], EntryMode.blob, 2⟩]⟩ emptyLookup neverCancel
      = ([], Outcome.todo "entry compares less - catch up") := by
  simp [to_obtain_tree, runStep, cmpBytes, neverCancel, emptyLookup, EMPTY_TREE,
    EntryMode.is_tree, EntryMode.is_no_tree]

/-- C2: the claim says the tree/non-tree boundary check is symmetric and a
tree-to-non-tree transition emits a Deletion carrying the source mode and
hash.  The code's second disjunct reads `rhs.mode.is_tree() &&
rhs.mode.is_no_tree()`, which is always false, so on source
`[("a", tree, 1)]` versus target `[("a", blob, 2)]` the engine records a
Modification, not a Deletion (and then panics at the unimplemented
`todo!("recurse tree|non-tree")`). -/
theorem c2_tree_to_nontree_emits_modification :
    to_obtain_tree (some ⟨[⟨[97], EntryMode.tree, 1⟩]⟩)
        ⟨[⟨[97], EntryMode.blob, 2⟩]⟩ emptyLookup neverCancel
      = ([Event.update ⟨[97], 1⟩ PathComponentUpdateMode.replace,
          Event.record (Change.modification EntryMode.tree 1 EntryMode.blob 2 1)],
         Outcome.todo "recurse tree|non-tree") := by
  simp [to_obtain_tree, runStep, cmpBytes, neverCancel, emptyLookup, EMPTY_TREE,
    EntryMode.is_tree, EntryMode.is_no_tree]

/-- C3: the claim says diffing any tree against itself emits nothing and
returns success, with no recursion on matched sub-trees with equal hashes.
The code reaches the `match (lhs.mode, rhs.mode)` step even when hash and
mode are identical, and its `(Tree, Tree)` arm is `todo!("recurse
tree|tree")`: diffing the one-entry tree `[("d", tree, 5)]` against itself
emits nothing but panics instead of returning success. -/
theorem c3_identity_subtree_hits_todo :
    to_obtain_tree (some ⟨[⟨[100], EntryMode.tree, 5⟩]⟩)
        ⟨[⟨[100], EntryMode.tree, 5⟩]⟩ emptyLookup neverCancel
      = ([], Outcome.todo "recurse tree|tree") := by
  simp [to_obtain_tree, runStep, cmpBytes, neverCancel, emptyLookup, EMPTY_TREE,
    EntryMode.is_tree, EntryMode.is_no_tree]

/-- C4: the claim says a file-to-directory change at one path emits one
Deletion followed by one Addition per entry of the new directory.  The code
emits the Deletion (old mode and hash) and then hits the unimplemented
`todo!("recurse non-tree|tree")`, so on source `[("a", blob, 1)]` versus
target `[("a", tree, 2)]` no Addition is ever produced. -/
theorem c4_file_to_dir_deletion_then_todo :
    to_obtain_tree (some ⟨[⟨[97], EntryMode.blob, 1⟩]⟩)
        ⟨[⟨[97], EntryMode.tree, 2⟩]⟩ emptyLookup neverCancel
      = ([Event.update ⟨[97], 1⟩ PathComponentUpdateMode.replace,
          Event.record (Change.deletion EntryMode.blob 1 1)],
         Outcome.todo "recurse non-tree|tree") := by
  simp [to_obtain_tree, runStep, cmpBytes, neverCancel, emptyLookup, EMPTY_TREE,
    EntryMode.is_tree, EntryMode.is_no_tree]

/-- C5 (counterexample): the claim says diffing the empty tree against `T`
emits one Addition per entry obtained by recursively flattening `T`.  On
`nestedTree` (a single sub-tree entry whose contents under `nestedLookup` are
three regular files) the call emits exactly one Addition, while the flattened
entry count is 4 (the sub-tree entry plus its three files; even counting only
the leaves gives 3): the engine never expands sub-trees on the
exhausted-source arm. -/
theorem c5_flatten_counterexample :
    countAdditions (to_obtain_tree none nestedTree nestedLookup neverCancel).1 = 1
      ∧ flattenedCount nestedLookup 2 nestedTree.entries = 4
      ∧ ¬ countAdditions
            (to_obtain_tree none nestedTree nestedLookup neverCancel).1
          = flattenedCount nestedLookup 2 nestedTree.entries := by
  have h1 : countAdditions
      (to_obtain_tree none nestedTree nestedLookup neverCancel).1 = 1 := by
    simp [to_obtain_tree, runStep, nestedTree, neverCancel, EMPTY_TREE,
      countAdditions, isAdditionEvent]
  have h2 : flattenedCount nestedLookup 2 nestedTree.entries = 4 := by
    simp [flattenedCount, nestedTree, nestedLookup, EntryMode.is_tree]
  exact ⟨h1, h2, by rw [h1, h2]; decide⟩

/-- C5 (amended): diffing the empty tree (an absent source) against a tree
`T` with a delegate that never cancels emits exactly one Addition per
top-level entry of `T`, in order, carrying that entry's mode and hash — with
no Deletions, no Modifications, and no expansion of sub-tree entries — and
returns success. -/
theorem c5_top_level_additions (T : Tree) (locate : Nat → Option Tree)
    (cancel : Nat → Change → Bool) (h : ∀ n ch, cancel n ch = false) :
    to_obtain_tree none T locate cancel = (additionEvents T.entries 0, Outcome.ok)
      ∧ countAdditions (to_obtain_tree none T locate cancel).1 = T.entries.length
      ∧ countDeletions (to_obtain_tree none T locate cancel).1 = 0
      ∧ countModifications (to_obtain_tree none T locate cancel).1 = 0 := by
  have he : to_obtain_tree none T locate cancel
      = (additionEvents T.entries 0, Outcome.ok) :=
    runStep_empty_left cancel h T.entries 0 0
  refine ⟨he, ?_, ?_, ?_⟩ <;> rw [he] <;>
    simp [countAdditions_additionEvents, countDeletions_additionEvents,
      countModifications_additionEvents]

/-- Witness for C5 (amended): on the two-entry target
`[("a", blob, 1), ("b", tree, 7)]` with a never-cancelling delegate, the diff
of the absent source emits exactly the two Additions and succeeds. -/
theorem c5_top_level_additions_witness :
    to_obtain_tree none ⟨[⟨[97], EntryMode.blob, 1⟩, ⟨[98], EntryMode.tree, 7⟩]⟩
        emptyLookup neverCancel
      = (additionEvents [⟨[97], EntryMode.blob, 1⟩, ⟨[98], EntryMode.tree, 7⟩] 0,
         Outcome.ok)
      ∧ countAdditions (to_obtain_tree none
          ⟨[⟨[97], EntryMode.blob, 1⟩, ⟨[98], EntryMode.tree, 7⟩]⟩
          emptyLookup neverCancel).1 = 2
      ∧ countDeletions (to_obtain_tree none
          ⟨[⟨[97], EntryMode.blob, 1⟩, ⟨[98], EntryMode.tree, 7⟩]⟩
          emptyLookup neverCancel).1 = 0
      ∧ countModifications (to_obtain_tree none
          ⟨[⟨[97], EntryMode.blob, 1⟩, ⟨[98], EntryMode.tree, 7⟩]⟩
          emptyLookup neverCancel).1 = 0 := by
  simpa using c5_top_level_additions
    ⟨[⟨[97], EntryMode.blob, 1⟩, ⟨[98], EntryMode.tree, 7⟩]⟩
    emptyLookup neverCancel (fun _ _ => rfl)

/-- C6: on every input, the trace and outcome of a diff call respect the
delegate's cancellation decisions: if any `record` call is answered Cancel,
that record is the last event of the whole trace (no further Path Tracker
mutation or Change event follows) and the call's result is the Cancelled
error. -/
theorem c6_cancellation_stops_traversal (self : Option Tree) (other : Tree)
    (locate : Nat → Option Tree) (cancel : Nat → Change → Bool) :
    cancelRespected cancel 0 (to_obtain_tree self other locate cancel).1
      (to_obtain_tree self other locate cancel).2 = true :=
  cancelRespected_runStep_aux cancel
    ((self.getD EMPTY_TREE).entries.length + other.entries.length)
    (self.getD EMPTY_TREE).entries other.entries 0 0 (Nat.le_refl _)

/-- C7: the claim says a failed object lookup during warranted recursion
yields the NotFound error carrying the missing hash.  The code never invokes
the lookup: on source `[("d", tree, 1)]` versus target `[("d", tree, 2)]`
with a store that has no objects at all, the call records a Modification and
panics at `todo!("recurse tree|tree")` without ever producing
`Error.notFound`. -/
theorem c7_notfound_never_reached :
    to_obtain_tree (some ⟨[⟨[100], EntryMode.tree, 1⟩]⟩)
        ⟨[⟨[100], EntryMode.tree, 2⟩]⟩ emptyLookup neverCancel
      = ([Event.update ⟨[100], 1⟩ PathComponentUpdateMode.replace,
          Event.record (Change.modification EntryMode.tree 1 EntryMode.tree 2 1)],
         Outcome.todo "recurse tree|tree") := by
  simp [to_obtain_tree, runStep, cmpBytes, neverCancel, emptyLookup, EMPTY_TREE,
    EntryMode.is_tree, EntryMode.is_no_tree]

/-- C8: on every input, each Change event in the trace of a diff call is
immediately preceded by exactly one `update_path_component` mutation with
mode Replace, and every such mutation is immediately followed by its Change
event; the mutation and the event share the path identity through which the
observer links the mutation's filename to the change (the change record
itself carries only mode, hash and identity). -/
theorem c8_path_tracker_protocol (self : Option Tree) (other : Tree)
    (locate : Nat → Option Tree) (cancel : Nat → Change → Bool) :
    pairedTrace (to_obtain_tree self other locate cancel).1 = true :=
  pairedTrace_runStep_aux cancel
    ((self.getD EMPTY_TREE).entries.length + other.entries.length)
    (self.getD EMPTY_TREE).entries other.entries 0 0 (Nat.le_refl _)

/-- C9: an absent source tree is replaced by the well-known empty tree
before the merge loop starts, so a diff call with source `none` produces
exactly the same trace and result as one with source `some EMPTY_TREE`, for
every target tree, lookup and delegate. -/
theorem c9_no_tree_equals_empty (other : Tree) (locate : Nat → Option Tree)
    (cancel : Nat → Change → Bool) :
    to_obtain_tree none other locate cancel
      = to_obtain_tree (some EMPTY_TREE) other locate cancel := by
  rfl

/-- C10: the object-lookup capability (`_locate` in the source) is never
invoked on any execution path: the whole trace and outcome of a diff call
are independent of the lookup passed in. -/
theorem c10_locate_never_invoked (self : Option Tree) (other : Tree)
    (locate₁ locate₂ : Nat → Option Tree) (cancel : Nat → Change → Bool) :
    to_obtain_tree self other locate₁ cancel
      = to_obtain_tree self other locate₂ cancel := by
  rfl

end GitDiff
